import Mathlib

/-!
# Verification of the publish-reconcile workflow of `automated_publishing.py`

This file shallowly embeds the core workflow of `src/automated_publishing.py`:
search for a pre-existing feature service, delete every match, poll until the
deletion is visible, publish, and then apply metadata, service-definition
settings and sharing permissions, with a single compensating
delete-poll-publish retry when the publish call fails.

The portal (an external collaborator) is modelled as an oracle `Env` giving
the result of the n-th call of each kind (search, delete, publish, metadata
update, definition update, share).  Every workflow function returns its
result, the advanced call counters, and a chronological trace of the portal
calls it performed, so that temporal claims (ordering of deletes, searches
and publishes) can be stated over the trace.
-/

/-- A portal item (feature service or source item); only the fields the
workflow reads are modelled. -/
structure SItem where
  title : String
  url : String
deriving DecidableEq

/-- One observable portal interaction performed by the workflow. -/
inductive PEvent where
  /-- A `gis.content.search` call, with the (already truncated) result list. -/
  | search (result : List SItem)
  /-- An `item.delete()` call on `item`, succeeding iff `ok`. -/
  | deleteCall (item : SItem) (ok : Bool)
  /-- An `item.publish(...)` call, returning `result` (`none` = failure). -/
  | publishCall (result : Option SItem)
  /-- A `published_item.update({...})` call with the three metadata fields,
  succeeding iff `ok`. -/
  | metadataUpdate (tags description categories : String) (ok : Bool)
  /-- A `layers.manager.update_definition({...})` call, succeeding iff `ok`. -/
  | defUpdate (ok : Bool)
  /-- An `fs.share(everyone=e, org=o)` call, succeeding iff `ok`. -/
  | shareCall (everyone org : Bool) (ok : Bool)
  /-- A `time.sleep(5)` between two deletion-confirmation polls. -/
  | sleep5
deriving DecidableEq

/-- The portal oracle: the outcome of the n-th call of each kind.
`searchAt n` is the full list of portal matches visible to the n-th search
(call sites truncate it with their `max_items`). -/
structure Env where
  searchAt : Nat → List SItem
  deleteOkAt : Nat → Bool
  publishAt : Nat → Option SItem
  metaOkAt : Nat → Bool
  defOkAt : Nat → Bool
  shareOkAt : Nat → Bool

/-- How many calls of each kind have been made so far. -/
structure Counters where
  nSearch : Nat
  nDelete : Nat
  nPublish : Nat
  nMeta : Nat
  nDef : Nat
  nShare : Nat
deriving DecidableEq

def initCounters : Counters := ⟨0, 0, 0, 0, 0, 0⟩

/-- The metadata dictionary passed to `publish_feature_service`; `none`
models an absent key, so `metadata.get(key, "")` is `Option.getD _ ""`. -/
structure Metadata where
  description : Option String
  tags : Option String
  categories : Option String
deriving DecidableEq

/-- The empty metadata dictionary `{}` used for multi-item runs. -/
def Metadata.empty : Metadata := ⟨none, none, none⟩

/-- The per-request outcome vocabulary of the specification's
`WorkflowResult`; each constructor labels one terminal path of the loop
body (`Published` = appended to `published_services`, `Failed` = skip after
a deletion error, `SkippedTimeout` = skip after the deletion-confirmation
poll timed out, `SkippedConflict` = second publish attempt also failed). -/
inductive Outcome where
  | Published
  | SkippedConflict
  | SkippedTimeout
  | Failed
deriving DecidableEq

/-- The configuration values the workflow reads from `CONFIG`. -/
structure Config where
  /-- `CONFIG["arcgis"].get("service_name", fallback)`: `none` models an
  absent key. -/
  service_name : Option String
  /-- `CONFIG["metadata"]`. -/
  metadata : Metadata
  /-- `CONFIG.get("default_share_level", "org")`: `none` models an absent
  key. -/
  default_share_level : Option String

/-- The literal `CONFIG` dictionary of `automated_publishing.py`. -/
def CONFIG : Config :=
  { service_name := some ""
  , metadata :=
      ⟨some "Service published using configuration settings."
      , some "configured,arcgis,service"
      , some "Example"⟩
  , default_share_level := some "org" }

/-- The share-level mapping of the loop's sharing block:
`public → share(everyone=True, org=False)`, `org → share(everyone=False,
org=True)`, anything else → `share(everyone=False, org=False)`. -/
def shareFlags (level : String) : Bool × Bool :=
  if level = "public" then (true, false)
  else if level = "org" then (false, true)
  else (false, false)

/-- Position of the last `'.'` in the character list that is preceded
somewhere by a non-dot character (the split point of `os.path.splitext`;
a leading run of dots never starts an extension). -/
def lastExtDotAux : List Char → Nat → Bool → Option Nat → Option Nat
  | [], _, _, acc => acc
  | ch :: rest, i, seenNonDot, acc =>
    if ch = '.' then
      lastExtDotAux rest (i + 1) seenNonDot (if seenNonDot then some i else acc)
    else
      lastExtDotAux rest (i + 1) true acc

/-- `os.path.splitext(title)[0]`: the title with its extension removed. -/
def splitextBase (s : String) : String :=
  match lastExtDotAux s.toList 0 false none with
  | none => s
  | some i => String.mk (s.toList.take i)

def bumpSearch (c : Counters) : Counters :=
  { c with nSearch := c.nSearch + 1 }

def bumpDelete (c : Counters) : Counters :=
  { c with nDelete := c.nDelete + 1 }

def bumpPublish (c : Counters) : Counters :=
  { c with nPublish := c.nPublish + 1 }

def bumpMeta (c : Counters) : Counters :=
  { c with nMeta := c.nMeta + 1 }

def bumpDef (c : Counters) : Counters :=
  { c with nDef := c.nDef + 1 }

def bumpShare (c : Counters) : Counters :=
  { c with nShare := c.nShare + 1 }

/-- One `gis.content.search(query=..., item_type="Feature Service",
max_items=maxItems)` call. -/
def doSearch (env : Env) (c : Counters) (maxItems : Nat) :
    List SItem × Counters × List PEvent :=
  let r := (env.searchAt c.nSearch).take maxItems
  (r, bumpSearch c, [PEvent.search r])

/-- The `for item in search_results: item.delete()` loop of
`delete_existing_service`: deletes each found item in order, returning
`False` at the first failing delete (remaining items are not touched). -/
def deleteItems (env : Env) (c : Counters) :
    List SItem → Bool × Counters × List PEvent
  | [] => (true, c, [])
  | it :: rest =>
    let ok := env.deleteOkAt c.nDelete
    if ok then
      let r := deleteItems env (bumpDelete c) rest
      (r.1, r.2.1, PEvent.deleteCall it true :: r.2.2)
    else
      (false, bumpDelete c, [PEvent.deleteCall it false])

/-- `delete_existing_service(service_name)`: search (max_items=10) for
services with the given title and owner, delete each match, return `True`
unless some delete raised.  When the search finds nothing the loop body is
skipped and the function returns `True` without any delete call. -/
def delete_existing_service (env : Env) (c : Counters) :
    Bool × Counters × List PEvent :=
  let s := doSearch env c 10
  let d := deleteItems env s.2.1 s.1
  (d.1, d.2.1, s.2.2 ++ d.2.2)

/-- The `while time.time() - start_time < timeout` loop of
`wait_for_service_deletion`, with `fuel` remaining iterations: search
(max_items=1), return `True` on an empty result, otherwise sleep 5 seconds
and try again; return `False` once the fuel (the timeout) is exhausted. -/
def waitGo (env : Env) (c : Counters) : Nat → Bool × Counters × List PEvent
  | 0 => (false, c, [])
  | fuel + 1 =>
    let s := doSearch env c 1
    if s.1.isEmpty then
      (true, s.2.1, s.2.2)
    else
      let r := waitGo env s.2.1 fuel
      (r.1, r.2.1, s.2.2 ++ [PEvent.sleep5] ++ r.2.2)

/-- `wait_for_service_deletion(service_name, timeout)`: polls every
5 seconds while the elapsed time stays below `timeout`; with the searches
idealised as instantaneous this is `⌈timeout / 5⌉` polls (36 for the
default `timeout=180`). -/
def wait_for_service_deletion (env : Env) (c : Counters) (timeout : Nat) :
    Bool × Counters × List PEvent :=
  waitGo env c ((timeout + 4) / 5)

/-- `publish_feature_service(item, service_name, metadata)`: publish the
item; a `None` result raises, is caught, and the function returns `None`.
On success the metadata update runs inside the same `try`, with each field
read as `metadata.get(key, "")`; if the update raises, the same handler
returns `None` even though the publish itself succeeded. -/
def publish_feature_service (env : Env) (c : Counters) (metadata : Metadata) :
    Option SItem × Counters × List PEvent :=
  let r := env.publishAt c.nPublish
  let c1 := bumpPublish c
  match r with
  | none => (none, c1, [PEvent.publishCall none])
  | some pub =>
    let ok := env.metaOkAt c1.nMeta
    let ev := PEvent.metadataUpdate (metadata.tags.getD "")
      (metadata.description.getD "") (metadata.categories.getD "") ok
    if ok then
      (some pub, bumpMeta c1, [PEvent.publishCall (some pub), ev])
    else
      (none, bumpMeta c1, [PEvent.publishCall (some pub), ev])

/-- The post-publish block of the loop: update the service definition
(capabilities, maxRecordCount, allowGeometryUpdates) and set the sharing
permissions from `CONFIG.get("default_share_level", "org")`; both calls
are wrapped in their own `try`/`except`, so their failures are only
logged. -/
def postPublish (cfg : Config) (env : Env) (c : Counters) :
    Counters × List PEvent :=
  let defOk := env.defOkAt c.nDef
  let c1 := bumpDef c
  let flags := shareFlags (cfg.default_share_level.getD "org")
  let sOk := env.shareOkAt c1.nShare
  (bumpShare c1,
   [PEvent.defUpdate defOk, PEvent.shareCall flags.1 flags.2 sOk])

/-- The publish half of the loop body: `fs = publish_feature_service(...)`;
if `fs is None`, one compensating cycle (`delete_existing_service`,
`wait_for_service_deletion`, publish again), after which a second `None`
means the item is skipped (`SkippedConflict`); a successful `fs` gets the
definition update and sharing applied and is `Published`. -/
def publishPhase (cfg : Config) (env : Env) (c : Counters)
    (metadata : Metadata) : Outcome × Counters × List PEvent :=
  let p1 := publish_feature_service env c metadata
  match p1.1 with
  | some _ =>
    let post := postPublish cfg env p1.2.1
    (Outcome.Published, post.1, p1.2.2 ++ post.2)
  | none =>
    let d := delete_existing_service env p1.2.1
    if d.1 then
      let w := wait_for_service_deletion env d.2.1 180
      if w.1 then
        let p2 := publish_feature_service env w.2.1 metadata
        match p2.1 with
        | some _ =>
          let post := postPublish cfg env p2.2.1
          (Outcome.Published, post.1,
           p1.2.2 ++ d.2.2 ++ w.2.2 ++ p2.2.2 ++ post.2)
        | none =>
          (Outcome.SkippedConflict, p2.2.1,
           p1.2.2 ++ d.2.2 ++ w.2.2 ++ p2.2.2)
      else
        (Outcome.SkippedTimeout, w.2.1, p1.2.2 ++ d.2.2 ++ w.2.2)
    else
      (Outcome.Failed, d.2.1, p1.2.2 ++ d.2.2)

/-- One iteration of the `for itm in selected_items` loop: check for an
existing service (max_items=1); if one exists, delete it and wait for the
deletion to be visible (a deletion error skips the item as `Failed`, a
poll timeout skips it as `SkippedTimeout`); then run the publish phase. -/
def processItem (cfg : Config) (env : Env) (c : Counters)
    (service_name : String) (metadata : Metadata) :
    Outcome × Counters × List PEvent :=
  let s := doSearch env c 1
  if s.1.isEmpty then
    let p := publishPhase cfg env s.2.1 metadata
    (p.1, p.2.1, s.2.2 ++ p.2.2)
  else
    let d := delete_existing_service env s.2.1
    if d.1 then
      let w := wait_for_service_deletion env d.2.1 180
      if w.1 then
        let p := publishPhase cfg env w.2.1 metadata
        (p.1, p.2.1, s.2.2 ++ d.2.2 ++ w.2.2 ++ p.2.2)
      else
        (Outcome.SkippedTimeout, w.2.1, s.2.2 ++ d.2.2 ++ w.2.2)
    else
      (Outcome.Failed, d.2.1, s.2.2 ++ d.2.2)

/-- `get_user_metadata()`: the metadata block of the configuration. -/
def get_user_metadata (cfg : Config) : Metadata :=
  cfg.metadata

/-- The service name used for an item: with a single selected item it is
`CONFIG["arcgis"].get("service_name", splitext(title)[0])`, otherwise
`splitext(title)[0]`. -/
def serviceNameFor (cfg : Config) (single : Bool) (title : String) : String :=
  if single then cfg.service_name.getD (splitextBase title)
  else splitextBase title

/-- The metadata used for an item: the configured metadata when a single
item is selected, the empty dictionary `{}` otherwise. -/
def metadataFor (cfg : Config) (single : Bool) : Metadata :=
  if single then get_user_metadata cfg else Metadata.empty

/-- The `for itm in selected_items` loop over the item titles, with
`single` the precomputed `len(selected_items) == 1` flag: each item is
processed in order and contributes one outcome; no outcome of one item
stops the processing of the rest. -/
def processBatch (cfg : Config) (env : Env) (single : Bool) :
    Counters → List String → List Outcome × Counters × List PEvent
  | c, [] => ([], c, [])
  | c, itm :: rest =>
    let r := processItem cfg env c (serviceNameFor cfg single itm)
      (metadataFor cfg single)
    let rs := processBatch cfg env single r.2.1 rest
    (r.1 :: rs.1, rs.2.1, r.2.2 ++ rs.2.2)

/-- The whole publishing run over the selected items:
`single_publish = (len(selected_items) == 1)` and then the loop. -/
def runPublishing (cfg : Config) (env : Env) (items : List String) :
    List Outcome × Counters × List PEvent :=
  processBatch cfg env (items.length == 1) initCounters items

/-! ## Trace observations -/

/-- The results of the publish calls in a trace, in order. -/
def publishResults : List PEvent → List (Option SItem)
  | [] => []
  | PEvent.publishCall r :: rest => r :: publishResults rest
  | _ :: rest => publishResults rest

/-- The items that received a delete call, in order. -/
def deleteTargets : List PEvent → List SItem
  | [] => []
  | PEvent.deleteCall it _ :: rest => it :: deleteTargets rest
  | _ :: rest => deleteTargets rest

/-- The items that received a delete call strictly before the first
publish call of the trace. -/
def deletesBeforeFirstPublish : List PEvent → List SItem
  | [] => []
  | PEvent.publishCall _ :: _ => []
  | PEvent.deleteCall it _ :: rest => it :: deletesBeforeFirstPublish rest
  | _ :: rest => deletesBeforeFirstPublish rest

/-- The result of the last search of the trace, starting from `last` when
the trace has no search. -/
def lastSearchFrom : Option (List SItem) → List PEvent → Option (List SItem)
  | _, PEvent.search r :: rest => lastSearchFrom (some r) rest
  | last, _ :: rest => lastSearchFrom last rest
  | last, [] => last

/-- `true` iff every publish call of the trace happens while the most
recent search result (starting from `last`) is the empty list. -/
def publishAfterEmpty : Option (List SItem) → List PEvent → Bool
  | _, PEvent.search r :: rest => publishAfterEmpty (some r) rest
  | last, PEvent.publishCall _ :: rest =>
    decide (last = some []) && publishAfterEmpty last rest
  | last, _ :: rest => publishAfterEmpty last rest
  | _, [] => true

/-- The `(tags, description, categories)` triples of the metadata-update
calls of a trace, in order. -/
def metaFields : List PEvent → List (String × String × String)
  | [] => []
  | PEvent.metadataUpdate t d cat _ :: rest => (t, d, cat) :: metaFields rest
  | _ :: rest => metaFields rest

/-- The `(everyone, org, ok)` triples of the share calls of a trace. -/
def shareEvents : List PEvent → List (Bool × Bool × Bool)
  | [] => []
  | PEvent.shareCall e o ok :: rest => (e, o, ok) :: shareEvents rest
  | _ :: rest => shareEvents rest

/-- The number of search events in a trace. -/
def countSearch : List PEvent → Nat
  | [] => 0
  | PEvent.search _ :: rest => countSearch rest + 1
  | _ :: rest => countSearch rest

/-- The number of sleep events in a trace. -/
def countSleep : List PEvent → Nat
  | [] => 0
  | PEvent.sleep5 :: rest => countSleep rest + 1
  | _ :: rest => countSleep rest

theorem publishResults_append (a b : List PEvent) :
    publishResults (a ++ b) = publishResults a ++ publishResults b := by
  induction a with
  | nil => rfl
  | cons ev rest ih => cases ev <;> simp [publishResults, ih]

theorem deleteTargets_append (a b : List PEvent) :
    deleteTargets (a ++ b) = deleteTargets a ++ deleteTargets b := by
  induction a with
  | nil => rfl
  | cons ev rest ih => cases ev <;> simp [deleteTargets, ih]

theorem metaFields_append (a b : List PEvent) :
    metaFields (a ++ b) = metaFields a ++ metaFields b := by
  induction a with
  | nil => rfl
  | cons ev rest ih => cases ev <;> simp [metaFields, ih]

theorem shareEvents_append (a b : List PEvent) :
    shareEvents (a ++ b) = shareEvents a ++ shareEvents b := by
  induction a with
  | nil => rfl
  | cons ev rest ih => cases ev <;> simp [shareEvents, ih]

theorem countSearch_append (a b : List PEvent) :
    countSearch (a ++ b) = countSearch a + countSearch b := by
  induction a with
  | nil => simp [countSearch]
  | cons ev rest ih => cases ev <;> simp [countSearch, ih] <;> omega

theorem countSleep_append (a b : List PEvent) :
    countSleep (a ++ b) = countSleep a + countSleep b := by
  induction a with
  | nil => simp [countSleep]
  | cons ev rest ih => cases ev <;> simp [countSleep, ih] <;> omega

theorem lastSearchFrom_append (last : Option (List SItem))
    (a b : List PEvent) :
    lastSearchFrom last (a ++ b) = lastSearchFrom (lastSearchFrom last a) b := by
  induction a generalizing last with
  | nil => rfl
  | cons ev rest ih => cases ev <;> simp [lastSearchFrom, ih]

theorem publishAfterEmpty_append (last : Option (List SItem))
    (a b : List PEvent) :
    publishAfterEmpty last (a ++ b)
      = (publishAfterEmpty last a
         && publishAfterEmpty (lastSearchFrom last a) b) := by
  induction a generalizing last with
  | nil => simp [publishAfterEmpty, lastSearchFrom]
  | cons ev rest ih =>
    cases ev <;>
      simp [publishAfterEmpty, lastSearchFrom, ih, Bool.and_assoc]

/-- A trace with no publish call vacuously satisfies `publishAfterEmpty`. -/
theorem publishAfterEmpty_of_no_publish (evs : List PEvent)
    (h : publishResults evs = []) (last : Option (List SItem)) :
    publishAfterEmpty last evs = true := by
  induction evs generalizing last with
  | nil => rfl
  | cons ev rest ih =>
    cases ev <;> simp [publishResults] at h <;>
      simp [publishAfterEmpty, ih h]

/-- Deletes of a publish-free trace all happen before the first publish of
whatever follows it. -/
theorem deletesBeforeFirstPublish_append_of_no_publish (evs rest : List PEvent)
    (h : publishResults evs = []) :
    deletesBeforeFirstPublish (evs ++ rest)
      = deleteTargets evs ++ deletesBeforeFirstPublish rest := by
  induction evs with
  | nil => rfl
  | cons ev tail ih =>
    cases ev <;> simp [publishResults] at h <;>
      simp [deletesBeforeFirstPublish, deleteTargets, ih h]

/-! ## Traces of the individual portal operations -/

theorem deleteItems_publishResults (env : Env) (c : Counters)
    (l : List SItem) : publishResults (deleteItems env c l).2.2 = [] := by
  induction l generalizing c with
  | nil => rfl
  | cons it rest ih =>
    cases h : env.deleteOkAt c.nDelete <;>
      simp [deleteItems, h, publishResults, ih]

theorem deleteItems_metaFields (env : Env) (c : Counters)
    (l : List SItem) : metaFields (deleteItems env c l).2.2 = [] := by
  induction l generalizing c with
  | nil => rfl
  | cons it rest ih =>
    cases h : env.deleteOkAt c.nDelete <;>
      simp [deleteItems, h, metaFields, ih]

theorem deleteItems_shareEvents (env : Env) (c : Counters)
    (l : List SItem) : shareEvents (deleteItems env c l).2.2 = [] := by
  induction l generalizing c with
  | nil => rfl
  | cons it rest ih =>
    cases h : env.deleteOkAt c.nDelete <;>
      simp [deleteItems, h, shareEvents, ih]

theorem deleteItems_countSearch (env : Env) (c : Counters)
    (l : List SItem) : countSearch (deleteItems env c l).2.2 = 0 := by
  induction l generalizing c with
  | nil => rfl
  | cons it rest ih =>
    cases h : env.deleteOkAt c.nDelete <;>
      simp [deleteItems, h, countSearch, ih]

theorem deleteItems_countSleep (env : Env) (c : Counters)
    (l : List SItem) : countSleep (deleteItems env c l).2.2 = 0 := by
  induction l generalizing c with
  | nil => rfl
  | cons it rest ih =>
    cases h : env.deleteOkAt c.nDelete <;>
      simp [deleteItems, h, countSleep, ih]

theorem deleteItems_lastSearchFrom (env : Env) (c : Counters)
    (l : List SItem) (last : Option (List SItem)) :
    lastSearchFrom last (deleteItems env c l).2.2 = last := by
  induction l generalizing c with
  | nil => rfl
  | cons it rest ih =>
    cases h : env.deleteOkAt c.nDelete <;>
      simp [deleteItems, h, lastSearchFrom, ih]

/-- When every delete succeeds, `deleteItems` succeeds and issues exactly
one (successful) delete call per found item, in order. -/
theorem deleteItems_ok (env : Env) (c : Counters) (l : List SItem)
    (h : ∀ i, i < l.length → env.deleteOkAt (c.nDelete + i) = true) :
    (deleteItems env c l).1 = true ∧
      (deleteItems env c l).2.2
        = l.map (fun it => PEvent.deleteCall it true) := by
  induction l generalizing c with
  | nil => exact ⟨rfl, rfl⟩
  | cons it rest ih =>
    have h0 : env.deleteOkAt c.nDelete = true := by
      have := h 0 (by simp)
      simpa using this
    have hrec := ih (bumpDelete c) (fun i hi => by
      have := h (i + 1) (by simp; omega)
      simpa [bumpDelete, Nat.add_assoc, Nat.add_comm 1 i] using this)
    simp [deleteItems, h0, hrec.1, hrec.2]

/-- When some delete among the found items fails, `deleteItems` reports
failure. -/
theorem deleteItems_fail (env : Env) (c : Counters) (l : List SItem)
    (h : ∃ i, i < l.length ∧ env.deleteOkAt (c.nDelete + i) = false) :
    (deleteItems env c l).1 = false := by
  induction l generalizing c with
  | nil =>
    obtain ⟨i, hi, _⟩ := h
    simp at hi
  | cons it rest ih =>
    obtain ⟨i, hi, hfail⟩ := h
    cases h0 : env.deleteOkAt c.nDelete with
    | false => simp [deleteItems, h0]
    | true =>
      cases i with
      | zero => simp [h0] at hfail
      | succ j =>
        have : (deleteItems env (bumpDelete c) rest).1 = false := by
          apply ih
          refine ⟨j, by simp at hi; omega, ?_⟩
          simpa [bumpDelete, Nat.add_assoc, Nat.add_comm 1 j] using hfail
        simp [deleteItems, h0, this]

theorem waitGo_publishResults (env : Env) (c : Counters) (fuel : Nat) :
    publishResults (waitGo env c fuel).2.2 = [] := by
  induction fuel generalizing c with
  | zero => rfl
  | succ n ih =>
    by_cases h : ((env.searchAt c.nSearch).take 1).isEmpty <;>
      simp [waitGo, doSearch, h, publishResults, publishResults_append, ih]

theorem waitGo_metaFields (env : Env) (c : Counters) (fuel : Nat) :
    metaFields (waitGo env c fuel).2.2 = [] := by
  induction fuel generalizing c with
  | zero => rfl
  | succ n ih =>
    by_cases h : ((env.searchAt c.nSearch).take 1).isEmpty <;>
      simp [waitGo, doSearch, h, metaFields, metaFields_append, ih]

theorem waitGo_shareEvents (env : Env) (c : Counters) (fuel : Nat) :
    shareEvents (waitGo env c fuel).2.2 = [] := by
  induction fuel generalizing c with
  | zero => rfl
  | succ n ih =>
    by_cases h : ((env.searchAt c.nSearch).take 1).isEmpty <;>
      simp [waitGo, doSearch, h, shareEvents, shareEvents_append, ih]

theorem waitGo_deleteTargets (env : Env) (c : Counters) (fuel : Nat) :
    deleteTargets (waitGo env c fuel).2.2 = [] := by
  induction fuel generalizing c with
  | zero => rfl
  | succ n ih =>
    by_cases h : ((env.searchAt c.nSearch).take 1).isEmpty <;>
      simp [waitGo, doSearch, h, deleteTargets, deleteTargets_append, ih]

/-- A successful deletion-confirmation poll ends on a search that returned
no match. -/
theorem waitGo_true_lastSearchFrom (env : Env) (c : Counters) (fuel : Nat)
    (h : (waitGo env c fuel).1 = true) (last : Option (List SItem)) :
    lastSearchFrom last (waitGo env c fuel).2.2 = some [] := by
  induction fuel generalizing c last with
  | zero => simp [waitGo] at h
  | succ n ih =>
    by_cases he : ((env.searchAt c.nSearch).take 1).isEmpty
    · have : (env.searchAt c.nSearch).take 1 = [] := by
        simpa [List.isEmpty_iff] using he
      simp [waitGo, doSearch, he, lastSearchFrom, this]
    · rw [waitGo, doSearch] at h ⊢
      simp only [he, if_false] at h ⊢
      simp only [lastSearchFrom_append, lastSearchFrom]
      exact ih _ (by simpa using h) _

/-- While every search keeps finding a match, the deletion-confirmation
poll performs exactly `fuel` searches, sleeps 5 seconds after each, and
then reports failure. -/
theorem waitGo_timeout (env : Env) (c : Counters) (fuel : Nat)
    (h : ∀ n, env.searchAt n ≠ []) :
    (waitGo env c fuel).1 = false ∧
      countSearch (waitGo env c fuel).2.2 = fuel ∧
      countSleep (waitGo env c fuel).2.2 = fuel := by
  induction fuel generalizing c with
  | zero => exact ⟨rfl, rfl, rfl⟩
  | succ n ih =>
    have hne : ((env.searchAt c.nSearch).take 1).isEmpty = false := by
      cases hs : env.searchAt c.nSearch with
      | nil => exact absurd hs (h c.nSearch)
      | cons a t => simp
    have hrec := ih (bumpSearch c)
    simp [waitGo, doSearch, hne, countSearch_append, countSleep_append,
      countSearch, countSleep, hrec.1, hrec.2.1, hrec.2.2]

theorem pfs_publishResults (env : Env) (c : Counters) (m : Metadata) :
    publishResults (publish_feature_service env c m).2.2
      = [env.publishAt c.nPublish] := by
  cases hp : env.publishAt c.nPublish with
  | none => simp [publish_feature_service, hp, publishResults]
  | some p =>
    cases hm : env.metaOkAt c.nMeta <;>
      simp [publish_feature_service, hp, bumpPublish, hm, publishResults]

/-- The trace of `publish_feature_service` starts with its publish call,
so nothing in it (or before it in a larger trace) deletes before the first
publish. -/
theorem pfs_deletesBefore (env : Env) (c : Counters) (m : Metadata)
    (rest : List PEvent) :
    deletesBeforeFirstPublish
      ((publish_feature_service env c m).2.2 ++ rest) = [] := by
  cases hp : env.publishAt c.nPublish with
  | none => simp [publish_feature_service, hp, deletesBeforeFirstPublish]
  | some p =>
    cases hm : env.metaOkAt c.nMeta <;>
      simp [publish_feature_service, hp, bumpPublish, hm,
        deletesBeforeFirstPublish]

theorem pfs_lastSearchFrom (env : Env) (c : Counters) (m : Metadata)
    (last : Option (List SItem)) :
    lastSearchFrom last (publish_feature_service env c m).2.2 = last := by
  cases hp : env.publishAt c.nPublish with
  | none => simp [publish_feature_service, hp, lastSearchFrom]
  | some p =>
    cases hm : env.metaOkAt c.nMeta <;>
      simp [publish_feature_service, hp, bumpPublish, hm, lastSearchFrom]

/-- The publish calls of `publish_feature_service` happen while the most
recent search returned no match, provided that was true on entry. -/
theorem pfs_publishAfterEmpty (env : Env) (c : Counters) (m : Metadata)
    (rest : List PEvent) :
    publishAfterEmpty (some [])
        ((publish_feature_service env c m).2.2 ++ rest)
      = publishAfterEmpty (some []) rest := by
  cases hp : env.publishAt c.nPublish with
  | none => simp [publish_feature_service, hp, publishAfterEmpty]
  | some p =>
    cases hm : env.metaOkAt c.nMeta <;>
      simp [publish_feature_service, hp, bumpPublish, hm, publishAfterEmpty]

theorem pfs_metaFields (env : Env) (c : Counters) (m : Metadata) :
    ∀ x ∈ metaFields (publish_feature_service env c m).2.2,
      x = (m.tags.getD "", m.description.getD "", m.categories.getD "") := by
  intro x hx
  cases hp : env.publishAt c.nPublish with
  | none => simp [publish_feature_service, hp, metaFields] at hx
  | some p =>
    cases hm : env.metaOkAt c.nMeta <;>
      simp [publish_feature_service, hp, bumpPublish, hm, metaFields] at hx <;>
      simp [hx]

theorem pfs_shareEvents (env : Env) (c : Counters) (m : Metadata) :
    shareEvents (publish_feature_service env c m).2.2 = [] := by
  cases hp : env.publishAt c.nPublish with
  | none => simp [publish_feature_service, hp, shareEvents]
  | some p =>
    cases hm : env.metaOkAt c.nMeta <;>
      simp [publish_feature_service, hp, bumpPublish, hm, shareEvents]

/-- A publish whose call and metadata update both succeed returns the
published item. -/
theorem pfs_some (env : Env) (c : Counters) (m : Metadata) (p : SItem)
    (hp : env.publishAt c.nPublish = some p)
    (hm : env.metaOkAt c.nMeta = true) :
    (publish_feature_service env c m).1 = some p := by
  simp [publish_feature_service, hp, bumpPublish, hm]

/-- A publish call that returns `None` makes `publish_feature_service`
return `None`. -/
theorem pfs_none (env : Env) (c : Counters) (m : Metadata)
    (hp : env.publishAt c.nPublish = none) :
    (publish_feature_service env c m).1 = none := by
  simp [publish_feature_service, hp]

/-- A metadata-update failure makes `publish_feature_service` return
`None` even though the publish call itself succeeded. -/
theorem pfs_meta_fail (env : Env) (c : Counters) (m : Metadata) (p : SItem)
    (hp : env.publishAt c.nPublish = some p)
    (hm : env.metaOkAt c.nMeta = false) :
    (publish_feature_service env c m).1 = none := by
  simp [publish_feature_service, hp, bumpPublish, hm]

theorem postPublish_publishResults (cfg : Config) (env : Env)
    (c : Counters) : publishResults (postPublish cfg env c).2 = [] := by
  simp [postPublish, publishResults]

theorem postPublish_metaFields (cfg : Config) (env : Env) (c : Counters) :
    metaFields (postPublish cfg env c).2 = [] := by
  simp [postPublish, metaFields]

theorem postPublish_shareEvents (cfg : Config) (env : Env) (c : Counters) :
    shareEvents (postPublish cfg env c).2
      = [((shareFlags (cfg.default_share_level.getD "org")).1,
          (shareFlags (cfg.default_share_level.getD "org")).2,
          env.shareOkAt c.nShare)] := by
  simp [postPublish, shareEvents, bumpDef]

theorem des_publishResults (env : Env) (c : Counters) :
    publishResults (delete_existing_service env c).2.2 = [] := by
  simp [delete_existing_service, doSearch, publishResults_append,
    publishResults, deleteItems_publishResults]

theorem des_metaFields (env : Env) (c : Counters) :
    metaFields (delete_existing_service env c).2.2 = [] := by
  simp [delete_existing_service, doSearch, metaFields_append,
    metaFields, deleteItems_metaFields]

theorem des_shareEvents (env : Env) (c : Counters) :
    shareEvents (delete_existing_service env c).2.2 = [] := by
  simp [delete_existing_service, doSearch, shareEvents_append,
    shareEvents, deleteItems_shareEvents]

theorem des_countSearch (env : Env) (c : Counters) :
    countSearch (delete_existing_service env c).2.2 = 1 := by
  simp [delete_existing_service, doSearch, countSearch_append,
    countSearch, deleteItems_countSearch]

theorem des_countSleep (env : Env) (c : Counters) :
    countSleep (delete_existing_service env c).2.2 = 0 := by
  simp [delete_existing_service, doSearch, countSleep_append,
    countSleep, deleteItems_countSleep]

theorem wfd_publishResults (env : Env) (c : Counters) (t : Nat) :
    publishResults (wait_for_service_deletion env c t).2.2 = [] := by
  rw [wait_for_service_deletion]; exact waitGo_publishResults _ _ _

theorem wfd_metaFields (env : Env) (c : Counters) (t : Nat) :
    metaFields (wait_for_service_deletion env c t).2.2 = [] := by
  rw [wait_for_service_deletion]; exact waitGo_metaFields _ _ _

theorem wfd_shareEvents (env : Env) (c : Counters) (t : Nat) :
    shareEvents (wait_for_service_deletion env c t).2.2 = [] := by
  rw [wait_for_service_deletion]; exact waitGo_shareEvents _ _ _

theorem wfd_deleteTargets (env : Env) (c : Counters) (t : Nat) :
    deleteTargets (wait_for_service_deletion env c t).2.2 = [] := by
  rw [wait_for_service_deletion]; exact waitGo_deleteTargets _ _ _

theorem wfd_true_lastSearchFrom (env : Env) (c : Counters) (t : Nat)
    (h : (wait_for_service_deletion env c t).1 = true)
    (last : Option (List SItem)) :
    lastSearchFrom last (wait_for_service_deletion env c t).2.2
      = some [] := by
  rw [wait_for_service_deletion] at h ⊢
  exact waitGo_true_lastSearchFrom _ _ _ h _

/-- With the default 180-second timeout and a service that never
disappears, the deletion-confirmation poll fails after exactly 36 searches
with a 5-second sleep after each (36 × 5 s = 180 s). -/
theorem wfd_timeout (env : Env) (c : Counters)
    (h : ∀ n, env.searchAt n ≠ []) :
    (wait_for_service_deletion env c 180).1 = false ∧
      countSearch (wait_for_service_deletion env c 180).2.2 = 36 ∧
      countSleep (wait_for_service_deletion env c 180).2.2 = 36 := by
  rw [wait_for_service_deletion]
  exact waitGo_timeout env c 36 h

/-- No publish call of a `publishPhase` trace is preceded by a delete call
issued inside that phase. -/
theorem pp_deletesBefore (cfg : Config) (env : Env) (c : Counters)
    (m : Metadata) :
    deletesBeforeFirstPublish (publishPhase cfg env c m).2.2 = [] := by
  rw [publishPhase]
  cases hp : (publish_feature_service env c m).1 with
  | some p =>
    have := pfs_deletesBefore env c m (postPublish cfg env
      (publish_feature_service env c m).2.1).2
    simpa using this
  | none =>
    by_cases hd :
        (delete_existing_service env (publish_feature_service env c m).2.1).1
    · by_cases hw : (wait_for_service_deletion env
          (delete_existing_service env
            (publish_feature_service env c m).2.1).2.1 180).1
      · cases hp2 : (publish_feature_service env
            (wait_for_service_deletion env
              (delete_existing_service env
                (publish_feature_service env c m).2.1).2.1 180).2.1 m).1 <;>
          simp [hd, hw, hp2, List.append_assoc, pfs_deletesBefore]
      · simp [hd, hw, List.append_assoc, pfs_deletesBefore]
    · simp [hd, List.append_assoc, pfs_deletesBefore]

/-- `publish_feature_service` returns an item only when the publish call
itself returned that item. -/
theorem pfs_fst_some (env : Env) (c : Counters) (m : Metadata) (p : SItem)
    (h : (publish_feature_service env c m).1 = some p) :
    env.publishAt c.nPublish = some p := by
  cases hp : env.publishAt c.nPublish with
  | none => simp [publish_feature_service, hp] at h
  | some q =>
    cases hm : env.metaOkAt c.nMeta <;>
      simp [publish_feature_service, hp, bumpPublish, hm] at h <;>
      simp [h]

/-- The publish phase performs at most two publish calls. -/
theorem pp_publishLen (cfg : Config) (env : Env) (c : Counters)
    (m : Metadata) :
    (publishResults (publishPhase cfg env c m).2.2).length ≤ 2 := by
  rw [publishPhase]
  cases hp : (publish_feature_service env c m).1 with
  | some p =>
    simp [publishResults_append, pfs_publishResults,
      postPublish_publishResults]
  | none =>
    by_cases hd :
        (delete_existing_service env (publish_feature_service env c m).2.1).1
    · by_cases hw : (wait_for_service_deletion env
          (delete_existing_service env
            (publish_feature_service env c m).2.1).2.1 180).1
      · cases hp2 : (publish_feature_service env
            (wait_for_service_deletion env
              (delete_existing_service env
                (publish_feature_service env c m).2.1).2.1 180).2.1 m).1 <;>
          simp [hd, hw, hp2, publishResults_append, pfs_publishResults,
            des_publishResults, wfd_publishResults,
            postPublish_publishResults]
      · simp [hd, hw, publishResults_append, pfs_publishResults,
          des_publishResults, wfd_publishResults]
    · simp [hd, publishResults_append, pfs_publishResults,
        des_publishResults]

/-- If both publish calls of the phase returned `None`, the phase ends in
`SkippedConflict`. -/
theorem pp_twoNone (cfg : Config) (env : Env) (c : Counters) (m : Metadata)
    (h : publishResults (publishPhase cfg env c m).2.2 = [none, none]) :
    (publishPhase cfg env c m).1 = Outcome.SkippedConflict := by
  rw [publishPhase] at h ⊢
  cases hp : (publish_feature_service env c m).1 with
  | some p =>
    simp only [hp] at h
    simp [publishResults_append, pfs_publishResults,
      postPublish_publishResults] at h
  | none =>
    simp only [hp] at h ⊢
    by_cases hd :
        (delete_existing_service env (publish_feature_service env c m).2.1).1
    · simp only [hd, if_true] at h ⊢
      by_cases hw : (wait_for_service_deletion env
          (delete_existing_service env
            (publish_feature_service env c m).2.1).2.1 180).1
      · simp only [hw, if_true] at h ⊢
        cases hp2 : (publish_feature_service env
            (wait_for_service_deletion env
              (delete_existing_service env
                (publish_feature_service env c m).2.1).2.1 180).2.1 m).1 with
        | none => simp only [hp2]
        | some q =>
          simp only [hp2] at h
          rw [List.append_assoc, List.append_assoc, List.append_assoc,
            publishResults_append, pfs_publishResults,
            publishResults_append, des_publishResults,
            publishResults_append, wfd_publishResults,
            publishResults_append, pfs_publishResults,
            pfs_fst_some _ _ _ _ hp2, postPublish_publishResults] at h
          simp at h
      · simp only [hw, if_false] at h
        simp [publishResults_append, pfs_publishResults,
          des_publishResults, wfd_publishResults] at h
    · simp only [hd, if_false] at h
      simp [publishResults_append, pfs_publishResults,
        des_publishResults] at h

/-- When every publish call and every metadata update succeeds, the
publish phase ends `Published`, whatever the definition update and the
share call do. -/
theorem pp_success (cfg : Config) (env : Env) (c : Counters) (m : Metadata)
    (h1 : ∀ n, (env.publishAt n).isSome = true)
    (h2 : ∀ n, env.metaOkAt n = true) :
    (publishPhase cfg env c m).1 = Outcome.Published := by
  obtain ⟨p, hp⟩ := Option.isSome_iff_exists.mp (h1 c.nPublish)
  have hsome := pfs_some env c m p hp (h2 c.nMeta)
  rw [publishPhase, hsome]

/-- Every publish call of `publish_feature_service` happens while the
most recent search returned no match, when that held on entry. -/
theorem pfs_publishAfterEmpty_nil (env : Env) (c : Counters) (m : Metadata) :
    publishAfterEmpty (some []) (publish_feature_service env c m).2.2
      = true := by
  cases hp : env.publishAt c.nPublish with
  | none => simp [publish_feature_service, hp, publishAfterEmpty]
  | some p =>
    cases hm : env.metaOkAt c.nMeta <;>
      simp [publish_feature_service, hp, bumpPublish, hm, publishAfterEmpty]

/-- Every publish call of the phase happens while the most recent search
returned no match, provided that held on entry. -/
theorem pp_publishAfterEmpty (cfg : Config) (env : Env) (c : Counters)
    (m : Metadata) :
    publishAfterEmpty (some []) (publishPhase cfg env c m).2.2 = true := by
  rw [publishPhase]
  cases hp : (publish_feature_service env c m).1 with
  | some p =>
    rw [pfs_publishAfterEmpty]
    exact publishAfterEmpty_of_no_publish _ (postPublish_publishResults _ _ _) _
  | none =>
    simp only [hp]
    by_cases hd :
        (delete_existing_service env (publish_feature_service env c m).2.1).1
    · rw [if_pos hd]
      by_cases hw : (wait_for_service_deletion env
          (delete_existing_service env
            (publish_feature_service env c m).2.1).2.1 180).1
      · rw [if_pos hw]
        cases hp2 : (publish_feature_service env
            (wait_for_service_deletion env
              (delete_existing_service env
                (publish_feature_service env c m).2.1).2.1 180).2.1 m).1 with
        | some q =>
          simp only [hp2, List.append_assoc]
          rw [pfs_publishAfterEmpty, publishAfterEmpty_append,
            publishAfterEmpty_of_no_publish _ (des_publishResults _ _),
            publishAfterEmpty_append,
            publishAfterEmpty_of_no_publish _ (wfd_publishResults _ _ _),
            wfd_true_lastSearchFrom _ _ _ hw,
            pfs_publishAfterEmpty,
            publishAfterEmpty_of_no_publish _
              (postPublish_publishResults _ _ _)]
          simp
        | none =>
          simp only [hp2, List.append_assoc]
          rw [pfs_publishAfterEmpty, publishAfterEmpty_append,
            publishAfterEmpty_of_no_publish _ (des_publishResults _ _),
            publishAfterEmpty_append,
            publishAfterEmpty_of_no_publish _ (wfd_publishResults _ _ _),
            wfd_true_lastSearchFrom _ _ _ hw,
            pfs_publishAfterEmpty_nil]
          simp
      · rw [if_neg hw]
        simp only [List.append_assoc]
        rw [pfs_publishAfterEmpty, publishAfterEmpty_append,
          publishAfterEmpty_of_no_publish _ (des_publishResults _ _),
          publishAfterEmpty_of_no_publish _ (wfd_publishResults _ _ _)]
        simp
    · rw [if_neg hd]
      rw [pfs_publishAfterEmpty]
      exact publishAfterEmpty_of_no_publish _ (des_publishResults _ _) _

/-- Every share call of the phase carries exactly the flags of the
configured share level. -/
theorem pp_shareEvents_mem (cfg : Config) (env : Env) (c : Counters)
    (m : Metadata) :
    ∀ x ∈ shareEvents (publishPhase cfg env c m).2.2,
      (x.1, x.2.1) = shareFlags (cfg.default_share_level.getD "org") := by
  intro x hx
  rw [publishPhase] at hx
  cases hp : (publish_feature_service env c m).1 with
  | some p =>
    simp only [hp, shareEvents_append, pfs_shareEvents,
      postPublish_shareEvents, List.nil_append] at hx
    simp at hx
    simp [hx]
  | none =>
    simp only [hp] at hx
    by_cases hd :
        (delete_existing_service env (publish_feature_service env c m).2.1).1
    · rw [if_pos hd] at hx
      by_cases hw : (wait_for_service_deletion env
          (delete_existing_service env
            (publish_feature_service env c m).2.1).2.1 180).1
      · rw [if_pos hw] at hx
        cases hp2 : (publish_feature_service env
            (wait_for_service_deletion env
              (delete_existing_service env
                (publish_feature_service env c m).2.1).2.1 180).2.1 m).1 with
        | some q =>
          simp only [hp2, List.append_assoc, shareEvents_append,
            pfs_shareEvents, des_shareEvents, wfd_shareEvents,
            postPublish_shareEvents, List.nil_append] at hx
          simp at hx
          simp [hx]
        | none =>
          simp only [hp2, List.append_assoc, shareEvents_append,
            pfs_shareEvents, des_shareEvents, wfd_shareEvents,
            List.nil_append, List.append_nil] at hx
          simp [shareEvents] at hx
      · rw [if_neg hw] at hx
        simp only [List.append_assoc, shareEvents_append, pfs_shareEvents,
          des_shareEvents, wfd_shareEvents, List.nil_append] at hx
        simp [shareEvents] at hx
    · rw [if_neg hd] at hx
      simp only [shareEvents_append, pfs_shareEvents, des_shareEvents,
        List.nil_append] at hx
      simp [shareEvents] at hx

/-- A share call only ever happens on the `Published` paths of the phase:
its failure cannot change the outcome. -/
theorem pp_share_published (cfg : Config) (env : Env) (c : Counters)
    (m : Metadata)
    (h : shareEvents (publishPhase cfg env c m).2.2 ≠ []) :
    (publishPhase cfg env c m).1 = Outcome.Published := by
  rw [publishPhase] at h ⊢
  cases hp : (publish_feature_service env c m).1 with
  | some p => simp [hp]
  | none =>
    simp only [hp] at h ⊢
    by_cases hd :
        (delete_existing_service env (publish_feature_service env c m).2.1).1
    · rw [if_pos hd] at h ⊢
      by_cases hw : (wait_for_service_deletion env
          (delete_existing_service env
            (publish_feature_service env c m).2.1).2.1 180).1
      · rw [if_pos hw] at h ⊢
        cases hp2 : (publish_feature_service env
            (wait_for_service_deletion env
              (delete_existing_service env
                (publish_feature_service env c m).2.1).2.1 180).2.1 m).1 with
        | some q => simp [hp2]
        | none =>
          simp only [hp2, List.append_assoc, shareEvents_append,
            pfs_shareEvents, des_shareEvents, wfd_shareEvents,
            List.nil_append, List.append_nil] at h
          simp [shareEvents] at h
      · rw [if_neg hw] at h
        simp only [List.append_assoc, shareEvents_append, pfs_shareEvents,
          des_shareEvents, wfd_shareEvents, List.nil_append] at h
        simp [shareEvents] at h
    · rw [if_neg hd] at h
      simp only [shareEvents_append, pfs_shareEvents, des_shareEvents,
        List.nil_append] at h
      simp [shareEvents] at h

/-- Every metadata update of the phase carries exactly the fields of the
metadata dictionary that was passed in, each read with default `""`. -/
theorem pp_metaFields_mem (cfg : Config) (env : Env) (c : Counters)
    (m : Metadata) :
    ∀ x ∈ metaFields (publishPhase cfg env c m).2.2,
      x = (m.tags.getD "", m.description.getD "", m.categories.getD "") := by
  intro x hx
  rw [publishPhase] at hx
  cases hp : (publish_feature_service env c m).1 with
  | some p =>
    simp only [hp, metaFields_append, postPublish_metaFields,
      List.append_nil] at hx
    exact pfs_metaFields env c m x hx
  | none =>
    simp only [hp] at hx
    by_cases hd :
        (delete_existing_service env (publish_feature_service env c m).2.1).1
    · rw [if_pos hd] at hx
      by_cases hw : (wait_for_service_deletion env
          (delete_existing_service env
            (publish_feature_service env c m).2.1).2.1 180).1
      · rw [if_pos hw] at hx
        cases hp2 : (publish_feature_service env
            (wait_for_service_deletion env
              (delete_existing_service env
                (publish_feature_service env c m).2.1).2.1 180).2.1 m).1 with
        | some q =>
          simp only [hp2, List.append_assoc, metaFields_append,
            des_metaFields, wfd_metaFields, postPublish_metaFields,
            List.nil_append, List.append_nil, List.mem_append] at hx
          rcases hx with hx | hx
          · exact pfs_metaFields env c m x hx
          · exact pfs_metaFields env _ m x hx
        | none =>
          simp only [hp2, List.append_assoc, metaFields_append,
            des_metaFields, wfd_metaFields, List.nil_append,
            List.append_nil, List.mem_append] at hx
          rcases hx with hx | hx
          · exact pfs_metaFields env c m x hx
          · exact pfs_metaFields env _ m x hx
      · rw [if_neg hw] at hx
        simp only [List.append_assoc, metaFields_append, des_metaFields,
          wfd_metaFields, List.nil_append, List.append_nil] at hx
        exact pfs_metaFields env c m x hx
    · rw [if_neg hd] at hx
      simp only [metaFields_append, des_metaFields, List.append_nil] at hx
      exact pfs_metaFields env c m x hx

/-! ## Shape of one loop iteration -/

theorem take_one_isEmpty (l : List SItem) :
    (l.take 1).isEmpty = l.isEmpty := by
  cases l <;> simp

/-- The four terminal paths of one iteration of the publish loop:
no pre-existing service (straight to the publish phase); pre-existing
service deleted and confirmed gone (publish phase); deletion-confirmation
timeout (`SkippedTimeout`); deletion error (`Failed`). -/
theorem processItem_shape (cfg : Config) (env : Env) (c : Counters)
    (name : String) (m : Metadata) :
    ((doSearch env c 1).1.isEmpty = true ∧
      processItem cfg env c name m
        = ((publishPhase cfg env (doSearch env c 1).2.1 m).1,
           (publishPhase cfg env (doSearch env c 1).2.1 m).2.1,
           (doSearch env c 1).2.2
             ++ (publishPhase cfg env (doSearch env c 1).2.1 m).2.2))
    ∨ ((doSearch env c 1).1.isEmpty = false ∧
        (delete_existing_service env (doSearch env c 1).2.1).1 = true ∧
        (wait_for_service_deletion env
          (delete_existing_service env (doSearch env c 1).2.1).2.1 180).1
          = true ∧
        processItem cfg env c name m
          = ((publishPhase cfg env
                (wait_for_service_deletion env
                  (delete_existing_service env
                    (doSearch env c 1).2.1).2.1 180).2.1 m).1,
             (publishPhase cfg env
                (wait_for_service_deletion env
                  (delete_existing_service env
                    (doSearch env c 1).2.1).2.1 180).2.1 m).2.1,
             (doSearch env c 1).2.2
               ++ (delete_existing_service env (doSearch env c 1).2.1).2.2
               ++ (wait_for_service_deletion env
                    (delete_existing_service env
                      (doSearch env c 1).2.1).2.1 180).2.2
               ++ (publishPhase cfg env
                    (wait_for_service_deletion env
                      (delete_existing_service env
                        (doSearch env c 1).2.1).2.1 180).2.1 m).2.2))
    ∨ ((doSearch env c 1).1.isEmpty = false ∧
        (delete_existing_service env (doSearch env c 1).2.1).1 = true ∧
        (wait_for_service_deletion env
          (delete_existing_service env (doSearch env c 1).2.1).2.1 180).1
          = false ∧
        processItem cfg env c name m
          = (Outcome.SkippedTimeout,
             (wait_for_service_deletion env
                (delete_existing_service env
                  (doSearch env c 1).2.1).2.1 180).2.1,
             (doSearch env c 1).2.2
               ++ (delete_existing_service env (doSearch env c 1).2.1).2.2
               ++ (wait_for_service_deletion env
                    (delete_existing_service env
                      (doSearch env c 1).2.1).2.1 180).2.2))
    ∨ ((doSearch env c 1).1.isEmpty = false ∧
        (delete_existing_service env (doSearch env c 1).2.1).1 = false ∧
        processItem cfg env c name m
          = (Outcome.Failed,
             (delete_existing_service env (doSearch env c 1).2.1).2.1,
             (doSearch env c 1).2.2
               ++ (delete_existing_service env (doSearch env c 1).2.1).2.2)) := by
  by_cases hs : (doSearch env c 1).1.isEmpty
  · exact Or.inl ⟨hs, by rw [processItem]; simp only [hs, if_true]⟩
  · by_cases hd : (delete_existing_service env (doSearch env c 1).2.1).1
    · by_cases hw : (wait_for_service_deletion env
          (delete_existing_service env (doSearch env c 1).2.1).2.1 180).1
      · refine Or.inr (Or.inl ⟨by simpa using hs, hd, hw, ?_⟩)
        rw [processItem]
        simp only [Bool.not_eq_true] at hs
        simp only [hs, Bool.false_eq_true, if_false]
        rw [if_pos hd, if_pos hw]
      · refine Or.inr (Or.inr (Or.inl
          ⟨by simpa using hs, hd, by simpa using hw, ?_⟩))
        rw [processItem]
        simp only [Bool.not_eq_true] at hs hw
        simp only [hs, Bool.false_eq_true, if_false]
        rw [if_pos hd]
        simp only [hw, Bool.false_eq_true, if_false]
    · refine Or.inr (Or.inr (Or.inr ⟨by simpa using hs, by simpa using hd, ?_⟩))
      rw [processItem]
      simp only [Bool.not_eq_true] at hs hd
      simp only [hs, hd, Bool.false_eq_true, if_false]

theorem deleteTargets_map (l : List SItem) :
    deleteTargets (l.map (fun it => PEvent.deleteCall it true)) = l := by
  induction l with
  | nil => rfl
  | cons it rest ih => simp [deleteTargets, ih]

/-- When every delete succeeds, `delete_existing_service` reports
success. -/
theorem des_ok (env : Env) (c : Counters)
    (h : ∀ n, env.deleteOkAt n = true) :
    (delete_existing_service env c).1 = true := by
  rw [delete_existing_service]
  exact (deleteItems_ok env _ _ (fun i _ => h _)).1

/-- When every delete succeeds, the trace of `delete_existing_service` is
its search followed by one successful delete per match found. -/
theorem des_ok_trace (env : Env) (c : Counters)
    (h : ∀ n, env.deleteOkAt n = true) :
    (delete_existing_service env c).2.2
      = PEvent.search ((env.searchAt c.nSearch).take 10)
        :: ((env.searchAt c.nSearch).take 10).map
             (fun it => PEvent.deleteCall it true) := by
  rw [delete_existing_service]
  simp [doSearch, (deleteItems_ok env _ _ (fun i _ => h _)).2]

/-- When any delete among the found matches fails (the i-th delete call
of the iteration, for any i within the match list), the whole
`delete_existing_service` reports failure. -/
theorem des_fail (env : Env) (c : Counters)
    (h : ∃ i, i < ((env.searchAt c.nSearch).take 10).length ∧
      env.deleteOkAt (c.nDelete + i) = false) :
    (delete_existing_service env c).1 = false := by
  rw [delete_existing_service]
  apply deleteItems_fail
  simpa [doSearch, bumpSearch] using h

/-- The trace of a search call alone. -/
theorem doSearch_trace (env : Env) (c : Counters) (k : Nat) :
    (doSearch env c k).2.2
      = [PEvent.search ((env.searchAt c.nSearch).take k)] := rfl

theorem doSearch_publishResults (env : Env) (c : Counters) (k : Nat) :
    publishResults (doSearch env c k).2.2 = [] := rfl

theorem doSearch_metaFields (env : Env) (c : Counters) (k : Nat) :
    metaFields (doSearch env c k).2.2 = [] := rfl

theorem doSearch_shareEvents (env : Env) (c : Counters) (k : Nat) :
    shareEvents (doSearch env c k).2.2 = [] := rfl

theorem doSearch_countSearch (env : Env) (c : Counters) (k : Nat) :
    countSearch (doSearch env c k).2.2 = 1 := rfl

theorem doSearch_countSleep (env : Env) (c : Counters) (k : Nat) :
    countSleep (doSearch env c k).2.2 = 0 := rfl

/-- The trace of `publish_feature_service` when the publish call returns
an item: the publish call followed by the metadata update. -/
theorem pfs_trace_some (env : Env) (c : Counters) (m : Metadata) (p : SItem)
    (hp : env.publishAt c.nPublish = some p) :
    (publish_feature_service env c m).2.2
      = [PEvent.publishCall (some p),
         PEvent.metadataUpdate (m.tags.getD "") (m.description.getD "")
           (m.categories.getD "") (env.metaOkAt c.nMeta)] := by
  cases hm : env.metaOkAt c.nMeta <;>
    simp [publish_feature_service, hp, bumpPublish, hm]

/-- The events that follow the first publish call of a trace. -/
def eventsAfterFirstPublish : List PEvent → List PEvent
  | [] => []
  | PEvent.publishCall _ :: rest => rest
  | _ :: rest => eventsAfterFirstPublish rest

/-- Whatever follows `publish_feature_service` in a trace comes after its
publish call, and `publish_feature_service` itself performs no search. -/
theorem pfs_eAFP_countSearch (env : Env) (c : Counters) (m : Metadata)
    (rest : List PEvent) :
    countSearch (eventsAfterFirstPublish
        ((publish_feature_service env c m).2.2 ++ rest))
      = countSearch rest := by
  cases hp : env.publishAt c.nPublish with
  | none =>
    simp [publish_feature_service, hp, eventsAfterFirstPublish]
  | some p =>
    cases hm : env.metaOkAt c.nMeta <;>
      simp [publish_feature_service, hp, bumpPublish, hm,
        eventsAfterFirstPublish, countSearch]

/-- After a failed first publish, the phase performs at least one further
search (the compensating `delete_existing_service` one): the workflow
re-enters the reconcile path. -/
theorem pp_none_countSearch (cfg : Config) (env : Env) (c : Counters)
    (m : Metadata) (h : (publish_feature_service env c m).1 = none) :
    countSearch (eventsAfterFirstPublish
        (publishPhase cfg env c m).2.2) ≠ 0 := by
  rw [publishPhase]
  simp only [h]
  by_cases hd :
      (delete_existing_service env (publish_feature_service env c m).2.1).1
  · rw [if_pos hd]
    by_cases hw : (wait_for_service_deletion env
        (delete_existing_service env
          (publish_feature_service env c m).2.1).2.1 180).1
    · rw [if_pos hw]
      cases hp2 : (publish_feature_service env
          (wait_for_service_deletion env
            (delete_existing_service env
              (publish_feature_service env c m).2.1).2.1 180).2.1 m).1 with
      | some q =>
        simp only [hp2, List.append_assoc, pfs_eAFP_countSearch,
          countSearch_append, des_countSearch]
        omega
      | none =>
        simp only [hp2, List.append_assoc, pfs_eAFP_countSearch,
          countSearch_append, des_countSearch]
        omega
    · rw [if_neg hw]
      simp only [List.append_assoc, pfs_eAFP_countSearch,
        countSearch_append, des_countSearch]
      omega
  · rw [if_neg hd]
    simp only [List.append_assoc, pfs_eAFP_countSearch,
      countSearch_append, des_countSearch]
    omega

/-! ## Per-iteration properties -/

theorem publishResults_map_delete (l : List SItem) :
    publishResults (l.map (fun it => PEvent.deleteCall it true)) = [] := by
  induction l with
  | nil => rfl
  | cons it rest ih => simp [publishResults, ih]

theorem eq_nil_of_isEmpty {l : List SItem} (h : l.isEmpty = true) :
    l = [] := by
  cases l with
  | nil => rfl
  | cons a t => simp at h

theorem isEmpty_false_of_ne_nil {l : List SItem} (h : l ≠ []) :
    l.isEmpty = false := by
  cases l with
  | nil => exact absurd rfl h
  | cons a t => rfl

/-- The whole loop iteration performs at most two publish calls. -/
theorem processItem_publishLen (cfg : Config) (env : Env) (c : Counters)
    (name : String) (m : Metadata) :
    (publishResults (processItem cfg env c name m).2.2).length ≤ 2 := by
  rcases processItem_shape cfg env c name m with
    ⟨hs, heq⟩ | ⟨hs, hd, hw, heq⟩ | ⟨hs, hd, hw, heq⟩ | ⟨hs, hd, heq⟩ <;>
    rw [heq] <;>
    simp [List.append_assoc, publishResults_append, doSearch_publishResults,
      des_publishResults, wfd_publishResults, pp_publishLen]

/-- If the iteration's trace shows two failed publish calls, its outcome
is `SkippedConflict`. -/
theorem processItem_twoNone (cfg : Config) (env : Env) (c : Counters)
    (name : String) (m : Metadata)
    (h : publishResults (processItem cfg env c name m).2.2 = [none, none]) :
    (processItem cfg env c name m).1 = Outcome.SkippedConflict := by
  rcases processItem_shape cfg env c name m with
    ⟨hs, heq⟩ | ⟨hs, hd, hw, heq⟩ | ⟨hs, hd, hw, heq⟩ | ⟨hs, hd, heq⟩
  · rw [heq] at h ⊢
    simp only [publishResults_append, doSearch_publishResults,
      List.nil_append] at h
    exact pp_twoNone _ _ _ _ h
  · rw [heq] at h ⊢
    simp only [List.append_assoc, publishResults_append,
      doSearch_publishResults, des_publishResults, wfd_publishResults,
      List.nil_append] at h
    exact pp_twoNone _ _ _ _ h
  · rw [heq] at h
    simp [List.append_assoc, publishResults_append, doSearch_publishResults,
      des_publishResults, wfd_publishResults] at h
  · rw [heq] at h
    simp [publishResults_append, doSearch_publishResults,
      des_publishResults] at h

/-- When every publish call and every metadata update succeeds, an
iteration that published at all ends `Published`, whatever the definition
update and the share call return. -/
theorem processItem_success (cfg : Config) (env : Env) (c : Counters)
    (name : String) (m : Metadata)
    (h1 : ∀ n, (env.publishAt n).isSome = true)
    (h2 : ∀ n, env.metaOkAt n = true)
    (hPub : publishResults (processItem cfg env c name m).2.2 ≠ []) :
    (processItem cfg env c name m).1 = Outcome.Published := by
  rcases processItem_shape cfg env c name m with
    ⟨hs, heq⟩ | ⟨hs, hd, hw, heq⟩ | ⟨hs, hd, hw, heq⟩ | ⟨hs, hd, heq⟩
  · rw [heq]
    exact pp_success _ _ _ _ h1 h2
  · rw [heq]
    exact pp_success _ _ _ _ h1 h2
  · rw [heq] at hPub
    simp [List.append_assoc, publishResults_append, doSearch_publishResults,
      des_publishResults, wfd_publishResults] at hPub
  · rw [heq] at hPub
    simp [publishResults_append, doSearch_publishResults,
      des_publishResults] at hPub

/-- With no pre-existing match, no delete call happens before the first
publish attempt. -/
theorem processItem_noDeleteBefore (cfg : Config) (env : Env) (c : Counters)
    (name : String) (m : Metadata)
    (h0 : env.searchAt c.nSearch = []) :
    deletesBeforeFirstPublish (processItem cfg env c name m).2.2 = [] := by
  have hs : (doSearch env c 1).1.isEmpty = true := by simp [doSearch, h0]
  rcases processItem_shape cfg env c name m with
    ⟨_, heq⟩ | ⟨hs2, _, _, _⟩ | ⟨hs2, _, _, _⟩ | ⟨hs2, _, _⟩
  · rw [heq, doSearch_trace]
    simp only [List.singleton_append, deletesBeforeFirstPublish]
    exact pp_deletesBefore _ _ _ _
  all_goals simp [hs] at hs2

/-- When the service never disappears from the portal and deletes succeed,
the iteration times out: outcome `SkippedTimeout`, no publish call, and a
poll trace of 36 searches and 36 sleeps after the two reconcile
searches. -/
theorem processItem_timeout (cfg : Config) (env : Env) (c : Counters)
    (name : String) (m : Metadata)
    (h1 : ∀ n, env.searchAt n ≠ [])
    (h2 : ∀ n, env.deleteOkAt n = true) :
    (processItem cfg env c name m).1 = Outcome.SkippedTimeout ∧
      publishResults (processItem cfg env c name m).2.2 = [] ∧
      countSearch (processItem cfg env c name m).2.2 = 38 ∧
      countSleep (processItem cfg env c name m).2.2 = 36 := by
  rcases processItem_shape cfg env c name m with
    ⟨hs, heq⟩ | ⟨hs, hd, hw, heq⟩ | ⟨hs, hd, hw, heq⟩ | ⟨hs, hd, heq⟩
  · rw [doSearch] at hs
    simp only [take_one_isEmpty] at hs
    exact absurd (eq_nil_of_isEmpty hs) (h1 c.nSearch)
  · have := (wfd_timeout env
      (delete_existing_service env (doSearch env c 1).2.1).2.1 h1).1
    rw [this] at hw
    cases hw
  · rw [heq]
    have hwt := wfd_timeout env
      (delete_existing_service env (doSearch env c 1).2.1).2.1 h1
    refine ⟨rfl, ?_, ?_, ?_⟩
    · simp [List.append_assoc, publishResults_append,
        doSearch_publishResults, des_publishResults, wfd_publishResults]
    · simp [List.append_assoc, countSearch_append, doSearch_countSearch,
        des_countSearch, hwt.2.1]
    · simp [List.append_assoc, countSleep_append, doSearch_countSleep,
        des_countSleep, hwt.2.2]
  · rw [des_ok env _ h2] at hd
    cases hd

/-- On a publish-free trace, the deletes before the first publish are
just all the deletes. -/
theorem dBFP_eq_deleteTargets_of_no_publish (evs : List PEvent)
    (h : publishResults evs = []) :
    deletesBeforeFirstPublish evs = deleteTargets evs := by
  have := deletesBeforeFirstPublish_append_of_no_publish evs [] h
  simpa [deletesBeforeFirstPublish] using this

/-- With a pre-existing match and all deletes succeeding, the deletes
issued before the first publish attempt are exactly the matches returned
by the reconcile search (which asks for at most 10 items), in order. -/
theorem processItem_deletesAll (cfg : Config) (env : Env) (c : Counters)
    (name : String) (m : Metadata)
    (h1 : env.searchAt c.nSearch ≠ [])
    (h2 : ∀ n, env.deleteOkAt n = true) :
    deletesBeforeFirstPublish (processItem cfg env c name m).2.2
      = (env.searchAt (c.nSearch + 1)).take 10 := by
  have hmap := des_ok_trace env (doSearch env c 1).2.1 h2
  have hidx : ((doSearch env c 1).2.1).nSearch = c.nSearch + 1 := by
    simp [doSearch, bumpSearch]
  rw [hidx] at hmap
  rcases processItem_shape cfg env c name m with
    ⟨hs, heq⟩ | ⟨hs, hd, hw, heq⟩ | ⟨hs, hd, hw, heq⟩ | ⟨hs, hd, heq⟩
  · rw [doSearch] at hs
    simp only [take_one_isEmpty] at hs
    exact absurd (eq_nil_of_isEmpty hs) h1
  · rw [heq]
    simp only [List.append_assoc]
    rw [deletesBeforeFirstPublish_append_of_no_publish _ _
        (doSearch_publishResults env c 1),
      deletesBeforeFirstPublish_append_of_no_publish _ _
        (des_publishResults _ _),
      deletesBeforeFirstPublish_append_of_no_publish _ _
        (wfd_publishResults _ _ _),
      pp_deletesBefore, wfd_deleteTargets, hmap, doSearch_trace]
    simp only [deleteTargets, deleteTargets_map, List.append_nil,
      List.nil_append]
  · rw [heq]
    simp only [List.append_assoc]
    rw [deletesBeforeFirstPublish_append_of_no_publish _ _
        (doSearch_publishResults env c 1),
      deletesBeforeFirstPublish_append_of_no_publish _ _
        (des_publishResults _ _),
      dBFP_eq_deleteTargets_of_no_publish _ (wfd_publishResults _ _ _),
      wfd_deleteTargets, hmap, doSearch_trace]
    simp only [deleteTargets, deleteTargets_map, List.append_nil,
      List.nil_append]
  · rw [des_ok env _ h2] at hd
    cases hd

/-- With a pre-existing match, when any of the delete calls on the
matches of the reconcile search fails, the iteration ends `Failed`
without any publish call. -/
theorem processItem_deleteFail (cfg : Config) (env : Env) (c : Counters)
    (name : String) (m : Metadata)
    (h1 : env.searchAt c.nSearch ≠ [])
    (h2 : ∃ i, i < ((env.searchAt (c.nSearch + 1)).take 10).length ∧
      env.deleteOkAt (c.nDelete + i) = false) :
    (processItem cfg env c name m).1 = Outcome.Failed ∧
      publishResults (processItem cfg env c name m).2.2 = [] := by
  have hdf : (delete_existing_service env (doSearch env c 1).2.1).1
      = false := by
    apply des_fail
    simpa [doSearch, bumpSearch] using h2
  rcases processItem_shape cfg env c name m with
    ⟨hs, heq⟩ | ⟨hs, hd, hw, heq⟩ | ⟨hs, hd, hw, heq⟩ | ⟨hs, hd, heq⟩
  · rw [doSearch] at hs
    simp only [take_one_isEmpty] at hs
    exact absurd (eq_nil_of_isEmpty hs) h1
  · rw [hdf] at hd; cases hd
  · rw [hdf] at hd; cases hd
  · rw [heq]
    exact ⟨rfl, by simp [publishResults_append, doSearch_publishResults,
      des_publishResults]⟩

/-- Every publish call of an iteration happens right after a search that
returned no match. -/
theorem processItem_publishAfterEmpty (cfg : Config) (env : Env)
    (c : Counters) (name : String) (m : Metadata) :
    publishAfterEmpty none (processItem cfg env c name m).2.2 = true := by
  rcases processItem_shape cfg env c name m with
    ⟨hs, heq⟩ | ⟨hs, hd, hw, heq⟩ | ⟨hs, hd, hw, heq⟩ | ⟨hs, hd, heq⟩
  · rw [heq, doSearch_trace]
    have hx : (env.searchAt c.nSearch).take 1 = [] := by
      apply eq_nil_of_isEmpty
      simpa [doSearch] using hs
    rw [hx]
    simp only [List.singleton_append, publishAfterEmpty]
    exact pp_publishAfterEmpty _ _ _ _
  · rw [heq]
    simp only [List.append_assoc]
    rw [publishAfterEmpty_append,
      publishAfterEmpty_of_no_publish _ (doSearch_publishResults env c 1),
      publishAfterEmpty_append,
      publishAfterEmpty_of_no_publish _ (des_publishResults _ _),
      publishAfterEmpty_append,
      publishAfterEmpty_of_no_publish _ (wfd_publishResults _ _ _),
      wfd_true_lastSearchFrom _ _ _ hw,
      pp_publishAfterEmpty]
    simp
  · rw [heq]
    apply publishAfterEmpty_of_no_publish
    simp [List.append_assoc, publishResults_append, doSearch_publishResults,
      des_publishResults, wfd_publishResults]
  · rw [heq]
    apply publishAfterEmpty_of_no_publish
    simp [publishResults_append, doSearch_publishResults,
      des_publishResults]

/-- Every share call of an iteration carries exactly the flags mapped from
the configured share level. -/
theorem processItem_shareEvents_mem (cfg : Config) (env : Env)
    (c : Counters) (name : String) (m : Metadata) :
    ∀ x ∈ shareEvents (processItem cfg env c name m).2.2,
      (x.1, x.2.1) = shareFlags (cfg.default_share_level.getD "org") := by
  intro x hx
  rcases processItem_shape cfg env c name m with
    ⟨hs, heq⟩ | ⟨hs, hd, hw, heq⟩ | ⟨hs, hd, hw, heq⟩ | ⟨hs, hd, heq⟩
  · rw [heq] at hx
    simp only [shareEvents_append, doSearch_shareEvents,
      List.nil_append] at hx
    exact pp_shareEvents_mem _ _ _ _ x hx
  · rw [heq] at hx
    simp only [List.append_assoc, shareEvents_append, doSearch_shareEvents,
      des_shareEvents, wfd_shareEvents, List.nil_append] at hx
    exact pp_shareEvents_mem _ _ _ _ x hx
  · rw [heq] at hx
    simp [List.append_assoc, shareEvents_append, doSearch_shareEvents,
      des_shareEvents, wfd_shareEvents] at hx
  · rw [heq] at hx
    simp [shareEvents_append, doSearch_shareEvents, des_shareEvents] at hx

/-- An iteration that reached its share call has outcome `Published`:
whatever the share call returns cannot change the outcome. -/
theorem processItem_share_published (cfg : Config) (env : Env)
    (c : Counters) (name : String) (m : Metadata)
    (h : shareEvents (processItem cfg env c name m).2.2 ≠ []) :
    (processItem cfg env c name m).1 = Outcome.Published := by
  rcases processItem_shape cfg env c name m with
    ⟨hs, heq⟩ | ⟨hs, hd, hw, heq⟩ | ⟨hs, hd, hw, heq⟩ | ⟨hs, hd, heq⟩
  · rw [heq] at h ⊢
    simp only [shareEvents_append, doSearch_shareEvents,
      List.nil_append] at h
    exact pp_share_published _ _ _ _ h
  · rw [heq] at h ⊢
    simp only [List.append_assoc, shareEvents_append, doSearch_shareEvents,
      des_shareEvents, wfd_shareEvents, List.nil_append] at h
    exact pp_share_published _ _ _ _ h
  · rw [heq] at h
    simp [List.append_assoc, shareEvents_append, doSearch_shareEvents,
      des_shareEvents, wfd_shareEvents] at h
  · rw [heq] at h
    simp [shareEvents_append, doSearch_shareEvents, des_shareEvents] at h

/-- Every metadata update of an iteration writes exactly the fields of the
metadata dictionary passed to it, each read with default `""`. -/
theorem processItem_metaFields_mem (cfg : Config) (env : Env)
    (c : Counters) (name : String) (m : Metadata) :
    ∀ x ∈ metaFields (processItem cfg env c name m).2.2,
      x = (m.tags.getD "", m.description.getD "", m.categories.getD "") := by
  intro x hx
  rcases processItem_shape cfg env c name m with
    ⟨hs, heq⟩ | ⟨hs, hd, hw, heq⟩ | ⟨hs, hd, hw, heq⟩ | ⟨hs, hd, heq⟩
  · rw [heq] at hx
    simp only [metaFields_append, doSearch_metaFields,
      List.nil_append] at hx
    exact pp_metaFields_mem _ _ _ _ x hx
  · rw [heq] at hx
    simp only [List.append_assoc, metaFields_append, doSearch_metaFields,
      des_metaFields, wfd_metaFields, List.nil_append] at hx
    exact pp_metaFields_mem _ _ _ _ x hx
  · rw [heq] at hx
    simp [List.append_assoc, metaFields_append, doSearch_metaFields,
      des_metaFields, wfd_metaFields] at hx
  · rw [heq] at hx
    simp [metaFields_append, doSearch_metaFields, des_metaFields] at hx

/-- With no pre-existing match, a successful publish call whose metadata
update fails sends the iteration into the conflict-retry path: at least
one further search follows the first publish call. -/
theorem processItem_conflictEntry (cfg : Config) (env : Env) (c : Counters)
    (name : String) (m : Metadata) (p : SItem)
    (h0 : env.searchAt c.nSearch = [])
    (hp : env.publishAt c.nPublish = some p)
    (hm : env.metaOkAt c.nMeta = false) :
    countSearch (eventsAfterFirstPublish
      (processItem cfg env c name m).2.2) ≠ 0 := by
  have hs : (doSearch env c 1).1.isEmpty = true := by simp [doSearch, h0]
  rcases processItem_shape cfg env c name m with
    ⟨_, heq⟩ | ⟨hs2, _, _, _⟩ | ⟨hs2, _, _, _⟩ | ⟨hs2, _, _⟩
  · rw [heq, doSearch_trace]
    simp only [List.singleton_append, eventsAfterFirstPublish]
    apply pp_none_countSearch
    apply pfs_meta_fail _ _ _ p
    · simpa [doSearch, bumpSearch] using hp
    · simpa [doSearch, bumpSearch] using hm
  all_goals simp [hs] at hs2

/-! ## The batch loop -/

/-- Every selected item yields exactly one outcome: the loop never aborts
early. -/
theorem processBatch_length (cfg : Config) (env : Env) (single : Bool) :
    ∀ (items : List String) (c : Counters),
      (processBatch cfg env single c items).1.length = items.length := by
  intro items
  induction items with
  | nil => intro c; rfl
  | cons itm rest ih => intro c; simp [processBatch, ih]

/-- The loop is strictly sequential: the outcomes of a concatenated batch
are the outcomes of the first part followed by the outcomes of the second
part started from the state the first part left behind. -/
theorem processBatch_append (cfg : Config) (env : Env) (single : Bool) :
    ∀ (items1 items2 : List String) (c : Counters),
      (processBatch cfg env single c (items1 ++ items2)).1
        = (processBatch cfg env single c items1).1
          ++ (processBatch cfg env single
               (processBatch cfg env single c items1).2.1 items2).1 := by
  intro items1
  induction items1 with
  | nil => intro items2 c; rfl
  | cons itm rest ih => intro items2 c; simp [processBatch, ih]

/-- Every metadata update of a batch run writes the fields of the metadata
dictionary selected for the run (configured metadata for a single-item
run, the empty dictionary otherwise). -/
theorem processBatch_metaFields_mem (cfg : Config) (env : Env)
    (single : Bool) :
    ∀ (items : List String) (c : Counters),
      ∀ x ∈ metaFields (processBatch cfg env single c items).2.2,
        x = ((metadataFor cfg single).tags.getD "",
             (metadataFor cfg single).description.getD "",
             (metadataFor cfg single).categories.getD "") := by
  intro items
  induction items with
  | nil => intro c x hx; simp [processBatch, metaFields] at hx
  | cons itm rest ih =>
    intro c x hx
    simp only [processBatch, metaFields_append, List.mem_append] at hx
    rcases hx with hx | hx
    · exact processItem_metaFields_mem _ _ _ _ _ x hx
    · exact ih _ x hx

/-! ## Witness environments -/

def itemA : SItem := ⟨"svc", "https://portal/svc"⟩

/-- Portal with no pre-existing service; publish and metadata update
succeed; definition update and share call fail. -/
def envAllOk : Env :=
  ⟨fun _ => [], fun _ => true, fun _ => some itemA, fun _ => true,
   fun _ => false, fun _ => false⟩

/-- Portal with no pre-existing service; publish succeeds but every
metadata update fails. -/
def envMetaFail : Env :=
  ⟨fun _ => [], fun _ => true, fun _ => some itemA, fun _ => false,
   fun _ => true, fun _ => true⟩

/-- Portal with no pre-existing service where every publish call returns
`None`. -/
def envConflict : Env :=
  ⟨fun _ => [], fun _ => true, fun _ => none, fun _ => true,
   fun _ => true, fun _ => true⟩

/-- Portal where a same-named service exists and never disappears, and
deletes succeed. -/
def envBusy : Env :=
  ⟨fun _ => [itemA], fun _ => true, fun _ => some itemA, fun _ => true,
   fun _ => true, fun _ => true⟩

def itemB : SItem := ⟨"svc", "https://portal/svc-copy"⟩

/-- Portal where two same-named services exist; the delete of the first
succeeds and the delete of the second fails. -/
def envDelFail : Env :=
  ⟨fun _ => [itemA, itemB], fun n => n == 0, fun _ => some itemA,
   fun _ => true, fun _ => true, fun _ => true⟩

/-! ## The claims -/

/-- C1 (counterexample): with no pre-existing service, a publish call that
succeeds but whose metadata update fails does not leave the outcome
`Published`: `publish_feature_service` returns `None`, the workflow enters
the conflict-retry path (two further searches follow the first publish),
the service is republished, and the second metadata failure ends the
request as `SkippedConflict`. -/
theorem C1_counterexample :
    publishResults (processItem CONFIG envMetaFail initCounters "svc"
        CONFIG.metadata).2.2 = [some itemA, some itemA] ∧
    countSearch (eventsAfterFirstPublish
      (processItem CONFIG envMetaFail initCounters "svc"
        CONFIG.metadata).2.2) = 2 ∧
    (processItem CONFIG envMetaFail initCounters "svc" CONFIG.metadata).1
      = Outcome.SkippedConflict ∧
    (processItem CONFIG envMetaFail initCounters "svc" CONFIG.metadata).1
      ≠ Outcome.Published := by
  refine ⟨by decide, by decide, by decide, by decide⟩

/-- C1 (amended): when every publish call and every metadata update
succeed, a request that published at all ends `Published` whatever the
definition update and the share call return (they are unconstrained
here); a metadata-update failure after a successful publish call,
however, sends the workflow into the conflict-retry path: at least one
search follows the first publish call. -/
theorem C1_theorem (cfg : Config) (env : Env) (c : Counters)
    (name : String) (m : Metadata) (p : SItem) :
    ((∀ n, (env.publishAt n).isSome = true) →
     (∀ n, env.metaOkAt n = true) →
     publishResults (processItem cfg env c name m).2.2 ≠ [] →
     (processItem cfg env c name m).1 = Outcome.Published) ∧
    (env.searchAt c.nSearch = [] →
     env.publishAt c.nPublish = some p →
     env.metaOkAt c.nMeta = false →
     countSearch (eventsAfterFirstPublish
       (processItem cfg env c name m).2.2) ≠ 0) :=
  ⟨fun h1 h2 h3 => processItem_success cfg env c name m h1 h2 h3,
   fun h0 hp hm => processItem_conflictEntry cfg env c name m p h0 hp hm⟩

theorem C1_witness :
    (processItem CONFIG envAllOk initCounters "svc" CONFIG.metadata).1
      = Outcome.Published ∧
    countSearch (eventsAfterFirstPublish
      (processItem CONFIG envMetaFail initCounters "svc"
        CONFIG.metadata).2.2) ≠ 0 :=
  ⟨(C1_theorem CONFIG envAllOk initCounters "svc" CONFIG.metadata
      itemA).1 (fun _ => rfl) (fun _ => rfl) (by decide),
   (C1_theorem CONFIG envMetaFail initCounters "svc" CONFIG.metadata
      itemA).2 rfl rfl rfl⟩

/-- C2: when the initial existence query finds no match, no delete call
happens before the first publish attempt. -/
theorem C2_theorem (cfg : Config) (env : Env) (c : Counters)
    (name : String) (m : Metadata)
    (h0 : env.searchAt c.nSearch = []) :
    deletesBeforeFirstPublish (processItem cfg env c name m).2.2 = [] :=
  processItem_noDeleteBefore cfg env c name m h0

theorem C2_witness :
    deletesBeforeFirstPublish (processItem CONFIG envAllOk initCounters
      "svc" CONFIG.metadata).2.2 = [] :=
  C2_theorem CONFIG envAllOk initCounters "svc" CONFIG.metadata rfl

/-- C3: with a pre-existing match that never disappears (deletes succeed
but the service stays visible), the deletion-confirmation poll runs 36
searches with a 5-second sleep after each (180 seconds at the default
timeout), the request ends `SkippedTimeout`, and publish is never invoked
(the whole iteration performs 38 searches: the existence check, the
delete search, and the 36 polls). -/
theorem C3_theorem (cfg : Config) (env : Env) (c : Counters)
    (name : String) (m : Metadata)
    (h1 : ∀ n, env.searchAt n ≠ [])
    (h2 : ∀ n, env.deleteOkAt n = true) :
    (processItem cfg env c name m).1 = Outcome.SkippedTimeout ∧
      publishResults (processItem cfg env c name m).2.2 = [] ∧
      countSearch (processItem cfg env c name m).2.2 = 38 ∧
      countSleep (processItem cfg env c name m).2.2 = 36 :=
  processItem_timeout cfg env c name m h1 h2

theorem C3_witness :
    (processItem CONFIG envBusy initCounters "svc" CONFIG.metadata).1
        = Outcome.SkippedTimeout ∧
      publishResults (processItem CONFIG envBusy initCounters "svc"
        CONFIG.metadata).2.2 = [] ∧
      countSearch (processItem CONFIG envBusy initCounters "svc"
        CONFIG.metadata).2.2 = 38 ∧
      countSleep (processItem CONFIG envBusy initCounters "svc"
        CONFIG.metadata).2.2 = 36 :=
  C3_theorem CONFIG envBusy initCounters "svc" CONFIG.metadata
    (fun _ => List.cons_ne_nil _ _) (fun _ => rfl)

/-- C4: each request publishes at most twice, and when both publish calls
return the null/failure signal the request ends `SkippedConflict` (no
further retry exists). -/
theorem C4_theorem (cfg : Config) (env : Env) (c : Counters)
    (name : String) (m : Metadata) :
    (publishResults (processItem cfg env c name m).2.2).length ≤ 2 ∧
    (publishResults (processItem cfg env c name m).2.2 = [none, none] →
      (processItem cfg env c name m).1 = Outcome.SkippedConflict) :=
  ⟨processItem_publishLen cfg env c name m,
   fun h => processItem_twoNone cfg env c name m h⟩

theorem C4_witness :
    (processItem CONFIG envConflict initCounters "svc"
      CONFIG.metadata).1 = Outcome.SkippedConflict :=
  (C4_theorem CONFIG envConflict initCounters "svc" CONFIG.metadata).2
    (by decide)

/-- C5: with a pre-existing match, when all deletes succeed the workflow
deletes every match its reconcile search returned (the search asks for at
most 10 items) before any publish; and when any of the delete calls on
those matches fails, the request ends `Failed` with no publish call at
all. -/
theorem C5_theorem (cfg : Config) (env : Env) (c : Counters)
    (name : String) (m : Metadata) :
    (env.searchAt c.nSearch ≠ [] → (∀ n, env.deleteOkAt n = true) →
      deletesBeforeFirstPublish (processItem cfg env c name m).2.2
        = (env.searchAt (c.nSearch + 1)).take 10) ∧
    (env.searchAt c.nSearch ≠ [] →
      (∃ i, i < ((env.searchAt (c.nSearch + 1)).take 10).length ∧
        env.deleteOkAt (c.nDelete + i) = false) →
      (processItem cfg env c name m).1 = Outcome.Failed ∧
        publishResults (processItem cfg env c name m).2.2 = []) :=
  ⟨fun h1 h2 => processItem_deletesAll cfg env c name m h1 h2,
   fun h1 h2 => processItem_deleteFail cfg env c name m h1 h2⟩

theorem C5_witness :
    deletesBeforeFirstPublish (processItem CONFIG envBusy initCounters
        "svc" CONFIG.metadata).2.2
      = (envBusy.searchAt 1).take 10 ∧
    (processItem CONFIG envDelFail initCounters "svc"
      CONFIG.metadata).1 = Outcome.Failed :=
  ⟨(C5_theorem CONFIG envBusy initCounters "svc" CONFIG.metadata).1
      (by decide) (fun _ => rfl),
   ((C5_theorem CONFIG envDelFail initCounters "svc" CONFIG.metadata).2
      (by decide) ⟨1, by decide, by decide⟩).1⟩

/-- C6: every publish call of an iteration happens while the most recent
existence query returned no match: either the initial check found
nothing, or the last poll of the deletion confirmation came back empty. -/
theorem C6_theorem (cfg : Config) (env : Env) (c : Counters)
    (name : String) (m : Metadata) :
    publishAfterEmpty none (processItem cfg env c name m).2.2 = true :=
  processItem_publishAfterEmpty cfg env c name m

/-- C7: the share level is applied as a total mapping — `public` shares to
everyone, `org` to the organization only, anything else to neither — and
a share call only ever happens on a `Published` path, so its failure
cannot change the outcome. -/
theorem C7_theorem (cfg : Config) (env : Env) (c : Counters)
    (name : String) (m : Metadata) :
    (∀ x ∈ shareEvents (processItem cfg env c name m).2.2,
      (x.1, x.2.1) = shareFlags (cfg.default_share_level.getD "org")) ∧
    (shareEvents (processItem cfg env c name m).2.2 ≠ [] →
      (processItem cfg env c name m).1 = Outcome.Published) ∧
    shareFlags "public" = (true, false) ∧
    shareFlags "org" = (false, true) ∧
    (∀ lvl, lvl ≠ "public" → lvl ≠ "org" →
      shareFlags lvl = (false, false)) :=
  ⟨processItem_shareEvents_mem cfg env c name m,
   fun h => processItem_share_published cfg env c name m h,
   rfl, rfl,
   fun lvl h1 h2 => by simp [shareFlags, h1, h2]⟩

theorem C7_witness :
    (((false, true, false) : Bool × Bool × Bool).1,
      ((false, true, false) : Bool × Bool × Bool).2.1)
        = shareFlags (CONFIG.default_share_level.getD "org") ∧
    (processItem CONFIG envAllOk initCounters "svc"
      CONFIG.metadata).1 = Outcome.Published ∧
    shareFlags "private" = (false, false) :=
  ⟨(C7_theorem CONFIG envAllOk initCounters "svc" CONFIG.metadata).1
      (false, true, false) (by decide),
   (C7_theorem CONFIG envAllOk initCounters "svc" CONFIG.metadata).2.1
      (by decide),
   (C7_theorem CONFIG envAllOk initCounters "svc" CONFIG.metadata).2.2.2.2
      "private" (by decide) (by decide)⟩

/-- C8: a run yields exactly one outcome per selected item, and the batch
loop is strictly sequential and never aborts early: the outcomes of a
concatenated batch are the outcomes of the first part followed by those
of the second part, whatever the first part's outcomes were. -/
theorem C8_theorem (cfg : Config) (env : Env) (items : List String) :
    (runPublishing cfg env items).1.length = items.length ∧
    (∀ (single : Bool) (items1 items2 : List String) (c : Counters),
      (processBatch cfg env single c (items1 ++ items2)).1
        = (processBatch cfg env single c items1).1
          ++ (processBatch cfg env single
               (processBatch cfg env single c items1).2.1 items2).1) :=
  ⟨processBatch_length cfg env (items.length == 1) items initCounters,
   fun single items1 items2 c =>
     processBatch_append cfg env single items1 items2 c⟩

/-- C9: when the search of `delete_existing_service` finds nothing, the
function succeeds (returns `True`) without issuing a single delete
call. -/
theorem C9_theorem (env : Env) (c : Counters)
    (h : env.searchAt c.nSearch = []) :
    (delete_existing_service env c).1 = true ∧
      deleteTargets (delete_existing_service env c).2.2 = [] := by
  constructor
  · rw [delete_existing_service]
    simp [doSearch, h, deleteItems]
  · rw [delete_existing_service]
    simp [doSearch, h, deleteItems, deleteTargets]

theorem C9_witness :
    (delete_existing_service envAllOk initCounters).1 = true ∧
      deleteTargets (delete_existing_service envAllOk initCounters).2.2
        = [] :=
  C9_theorem envAllOk initCounters rfl

/-- C10: a run with more than one selected item passes the empty metadata
dictionary to the publish step, so every post-publish metadata update
writes empty tags, description and categories; a single-item run writes
the configured metadata fields instead. -/
theorem C10_theorem (cfg : Config) (env : Env) (items : List String) :
    (2 ≤ items.length →
      ∀ x ∈ metaFields (runPublishing cfg env items).2.2,
        x = ("", "", "")) ∧
    (items.length = 1 →
      ∀ x ∈ metaFields (runPublishing cfg env items).2.2,
        x = (cfg.metadata.tags.getD "", cfg.metadata.description.getD "",
             cfg.metadata.categories.getD "")) := by
  constructor
  · intro h x hx
    have hsingle : (items.length == 1) = false := by
      have hne : items.length ≠ 1 := by omega
      simpa using hne
    rw [runPublishing, hsingle] at hx
    have := processBatch_metaFields_mem cfg env false items initCounters
      x hx
    simpa [metadataFor, Metadata.empty] using this
  · intro h x hx
    have hsingle : (items.length == 1) = true := by
      simp [h]
    rw [runPublishing, hsingle] at hx
    have := processBatch_metaFields_mem cfg env true items initCounters
      x hx
    simpa [metadataFor, get_user_metadata] using this

theorem C10_witness :
    (("", "", "") : String × String × String) = ("", "", "") ∧
    (("configured,arcgis,service",
      "Service published using configuration settings.", "Example")
        : String × String × String)
      = (CONFIG.metadata.tags.getD "",
         CONFIG.metadata.description.getD "",
         CONFIG.metadata.categories.getD "") :=
  ⟨(C10_theorem CONFIG envAllOk ["a.shp", "b.shp"]).1 (by decide) _
      (by decide),
   (C10_theorem CONFIG envAllOk ["a.shp"]).2 (by decide) _ (by decide)⟩
